import Mathlib

set_option maxHeartbeats 1000000

/-!
Shallow embedding of the H.264 SPS decoder in `src/util/sps.c` (plus its
header `src/util/sps.h`), together with theorems checking the repository's
natural-language specification against it.

Modelling conventions:
* C `unsigned` (32-bit) arithmetic is `Nat` with an explicit `% 2^32`
  (`U32`) wherever the C computation can wrap.
* The byte buffer is a `List Nat`; reads of whole bytes apply `% 256` to
  mirror the `uint8_t` element type (single-bit extraction already masks
  with `&&& 1`, which only inspects the low 8 bits for the shifts used).
* The `struct getbit` cursor is `Getbit`; the C field `end` is named
  `endp` (Lean keyword clash), `buf` and `pos` keep their names.
* The out-parameter `struct h264_sps *sps` is modelled by passing the
  caller's record in and returning the record as left in memory, so the
  partial writes the C code performs before a failure are observable.
* The unbounded `while` loop of `get_ue_golomb`'s leading-zero scan is
  modelled with an explicit fuel of `getbit_get_left gb + 1`; the loop
  consumes one bit per iteration, so this fuel is never exhausted and the
  fuel-out branch coincides with the loop's own end-of-buffer exit.
-/

/-- Linux errno value `EINVAL`, returned for invalid caller input. -/
def EINVAL : Nat := 22

/-- Linux errno value `EBADMSG`, returned for a corrupt or truncated bitstream. -/
def EBADMSG : Nat := 74

/-- Linux errno value `ENOTSUP`, returned for an unsupported syntax path. -/
def ENOTSUP : Nat := 95

/-- Modulus of the C `unsigned` type (2^32). -/
def U32 : Nat := 4294967296

/-- C 32-bit unsigned addition. -/
def uadd (a b : Nat) : Nat := (a + b) % U32

/-- C 32-bit unsigned subtraction (operands already reduced mod 2^32). -/
def usub (a b : Nat) : Nat := (a + (U32 - b % U32)) % U32

/-- C 32-bit unsigned multiplication. -/
def umul (a b : Nat) : Nat := (a * b) % U32

/-- Enum constant `MAX_SPS_COUNT` from sps.c. -/
def MAX_SPS_COUNT : Nat := 32

/-- Enum constant `MAX_LOG2_MAX_FRAME_NUM` from sps.c. -/
def MAX_LOG2_MAX_FRAME_NUM : Nat := 16

/-- Enum constant `MACROBLOCK_SIZE` from sps.c. -/
def MACROBLOCK_SIZE : Nat := 16

/-- Macro `MAX_MACROBLOCKS` from sps.c. -/
def MAX_MACROBLOCKS : Nat := 1048576

/-- The bit cursor `struct getbit` of sps.c: buffer, bit position, bit length
(the C field `end` is spelled `endp`). -/
structure Getbit where
  buf : List Nat
  pos : Nat
  endp : Nat
deriving Repr, DecidableEq

/-- `getbit_init` (sps.c line 347): position the cursor at bit 0. -/
def getbit_init (buf : List Nat) (size : Nat) : Getbit :=
  { buf := buf, pos := 0, endp := size }

/-- `getbit_get_left` (sps.c line 358): bits remaining, never negative. -/
def getbit_get_left (gb : Getbit) : Nat :=
  if gb.endp > gb.pos then gb.endp - gb.pos else 0

/-- `get_bit` (sps.c line 370): when `pos >= end` it logs a diagnostic and
returns the value 0 without advancing; otherwise it extracts bit
`7 - pos % 8` of byte `pos / 8` (the C source writes `pos >> 0x3` and
`pos & 0x7`) and advances the cursor by one bit. -/
def get_bit (gb : Getbit) : Nat × Getbit :=
  if gb.pos ≥ gb.endp then (0, gb)
  else (((gb.buf.getD (gb.pos / 8) 0) >>> (7 - gb.pos % 8)) &&& 1,
        { gb with pos := gb.pos + 1 })

/-- The bit a cursor over `buf` reads at absolute bit index `i` (helper for
stating properties; identical to the extraction in `get_bit`). -/
def bit_at (buf : List Nat) (i : Nat) : Nat :=
  ((buf.getD (i / 8) 0) >>> (7 - i % 8)) &&& 1

/-- The leading-zero scan of `get_ue_golomb` (sps.c lines 402-411): count
zero bits up to and including the terminating 1 bit, failing with
`EBADMSG` on exhaustion.  The first argument is fuel (see file header). -/
def scan_go : Nat → Nat → Getbit → Nat × Nat × Getbit
  | 0, zeros, gb => (EBADMSG, zeros, gb)
  | fuel+1, zeros, gb =>
    if getbit_get_left gb < 1 then (EBADMSG, zeros, gb)
    else if (get_bit gb).1 = 0 then scan_go fuel (zeros + 1) (get_bit gb).2
    else (0, zeros, (get_bit gb).2)

/-- The leading-zero scan entered with enough fuel for the whole cursor. -/
def scan_zeros (gb : Getbit) : Nat × Nat × Getbit :=
  scan_go (getbit_get_left gb + 1) 0 gb

/-- The suffix loop of `get_ue_golomb` (sps.c lines 415-421):
`for (i = zeros - 1; i >= 0; i--) info |= get_bit(gb) << i;`, failing with
`EBADMSG` on exhaustion.  The first argument is the loop counter. -/
def read_suffix : Nat → Nat → Getbit → Nat × Nat × Getbit
  | 0, info, gb => (0, info, gb)
  | i+1, info, gb =>
    if getbit_get_left gb < 1 then (EBADMSG, info, gb)
    else read_suffix i (info ||| (((get_bit gb).1 <<< i) % U32)) (get_bit gb).2

/-- `get_ue_golomb` (sps.c line 393): decode one unsigned Exp-Golomb value.
Returns (error code, decoded value, updated cursor); the value component is
meaningful only when the error code is 0 (the C code writes `*valp` only on
success). -/
def get_ue_golomb (gb : Getbit) : Nat × Nat × Getbit :=
  match scan_zeros gb with
  | (e, zeros, gb) =>
    if e ≠ 0 then (e, 0, gb)
    else
      match read_suffix zeros ((1 <<< zeros) % U32) gb with
      | (e2, info, gb) =>
        if e2 ≠ 0 then (e2, 0, gb)
        else (0, (info + (U32 - 1)) % U32, gb)

/-- The loop body state of `scaling_list` (sps.c lines 49-79): for each of the
remaining positions, when `nextscale` is nonzero decode a `delta_scale` and
set `nextscale = (lastscale + delta_scale + 256) % 256`; the stored value
(and the new `lastscale`) is `lastscale` when `nextscale` is 0 and
`nextscale` otherwise.  The stored array and the `usedefaultscalingmatrix`
flag do not influence control flow and are not tracked. -/
def scaling_list_go : Nat → Nat → Nat → Getbit → Nat × Getbit
  | 0, _, _, gb => (0, gb)
  | j+1, lastscale, nextscale, gb =>
    if nextscale ≠ 0 then
      match get_ue_golomb gb with
      | (e, delta_scale, gb) =>
        if e ≠ 0 then (e, gb)
        else
          scaling_list_go j
            (if (lastscale + delta_scale + 256) % 256 = 0 then lastscale
             else (lastscale + delta_scale + 256) % 256)
            ((lastscale + delta_scale + 256) % 256) gb
    else
      scaling_list_go j lastscale nextscale gb

/-- `scaling_list` (sps.c line 49) with `lastscale`/`nextscale` seeded at 8. -/
def scaling_list (gb : Getbit) (sizeofscalinglist : Nat) : Nat × Getbit :=
  scaling_list_go sizeofscalinglist 8 8 gb

/-- The loop of `decode_scaling_matrix` (sps.c lines 96-119): for index `i`
with `rem` iterations remaining, read one presence flag bit (after an
explicit `getbit_get_left` check) and, when set, decode a 4x4 list for
`i < 6` and an 8x8 list otherwise. -/
def dsm_go : Nat → Nat → Getbit → Nat × Getbit
  | 0, _, gb => (0, gb)
  | rem+1, i, gb =>
    if getbit_get_left gb < 1 then (EBADMSG, gb)
    else if (get_bit gb).1 ≠ 0 then
      match scaling_list (get_bit gb).2 (if i < 6 then 16 else 64) with
      | (e, gb) =>
        if e ≠ 0 then (e, gb)
        else dsm_go rem (i + 1) gb
    else dsm_go rem (i + 1) (get_bit gb).2

/-- `decode_scaling_matrix` (sps.c line 88): 8 lists when
`chroma_format_idc != 3`, otherwise 12. -/
def decode_scaling_matrix (gb : Getbit) (chroma_format_idc : Nat) : Nat × Getbit :=
  dsm_go (if chroma_format_idc ≠ 3 then 8 else 12) 0 gb

/-- The high-profile test of sps.c lines 165-175. -/
def profile_is_high (p : Nat) : Bool :=
  p == 100 || p == 110 || p == 122 || p == 244 || p == 44 || p == 83 ||
  p == 86 || p == 118 || p == 128 || p == 138 || p == 144

/-- The high-profile branch of `h264_sps_decode` (sps.c lines 176-213):
decode `chroma_format_idc` (must be at most 3; when 3 consume one
`separate_colour_plane_flag` bit), consume two bit-depth Golomb fields with
`err |=` chaining, check two bits remain, consume
`qpprime_y_zero_transform_bypass_flag` and
`seq_scaling_matrix_present_flag`, and when the latter is set run
`decode_scaling_matrix`.  Returns (error, chroma_format_idc, cursor); the
chroma value is meaningful only on success. -/
def decode_high_profile (gb : Getbit) : Nat × Nat × Getbit :=
  match get_ue_golomb gb with
  | (e, chroma_format_idc, gb) =>
  if e ≠ 0 then (e, 1, gb)
  else if 3 < chroma_format_idc then (EBADMSG, chroma_format_idc, gb)
  else
    match (if chroma_format_idc = 3 then
             (if getbit_get_left gb < 1 then (EBADMSG, gb)
              else (0, (get_bit gb).2))
           else (0, gb) : Nat × Getbit) with
    | (e1, gb) =>
    if e1 ≠ 0 then (e1, chroma_format_idc, gb)
    else
      match get_ue_golomb gb with
      | (eA, _, gb) =>
      match get_ue_golomb gb with
      | (eB, _, gb) =>
      if eA ||| eB ≠ 0 then (eA ||| eB, chroma_format_idc, gb)
      else if getbit_get_left gb < 2 then (EBADMSG, chroma_format_idc, gb)
      else if (get_bit (get_bit gb).2).1 ≠ 0 then
        match decode_scaling_matrix (get_bit (get_bit gb).2).2 chroma_format_idc with
        | (e2, gb) => if e2 ≠ 0 then (e2, chroma_format_idc, gb)
                      else (0, chroma_format_idc, gb)
      else (0, chroma_format_idc, (get_bit (get_bit gb).2).2)

/-- The `pic_order_cnt_type` dispatch of sps.c lines 232-246: type 0
consumes one discarded Golomb value, type 2 consumes nothing, anything
else is `ENOTSUP`. -/
def poc_phase (gb : Getbit) (pic_order_cnt_type : Nat) : Nat × Getbit :=
  if pic_order_cnt_type = 0 then
    match get_ue_golomb gb with
    | (e, _, gb) => (e, gb)
  else if pic_order_cnt_type = 2 then (0, gb)
  else (ENOTSUP, gb)

/-- The optional `mb_adaptive_frame_field_flag` bit of sps.c lines 278-285,
consumed only when `frame_mbs_only_flag` is 0. -/
def adaptive_phase (gb : Getbit) (frame_mbs_only_flag : Nat) : Nat × Getbit :=
  if frame_mbs_only_flag ≠ 0 then (0, gb)
  else if getbit_get_left gb < 1 then (EBADMSG, gb)
  else (0, (get_bit gb).2)

/-- The cropping block of sps.c lines 301-330: decode the four crop Golomb
values with `err |=` chaining, compute the subsampling factors from
`chroma_format_idc` and `frame_mbs_only_flag`, reject with `EBADMSG` unless
both `(crop_left+crop_right)*sx < width` and `(crop_top+crop_bottom)*sy <
height` (32-bit unsigned arithmetic), and return the four pixel offsets
`sx*crop_left, sx*crop_right, sy*crop_top, sy*crop_bottom`.  The offsets are
meaningful only on success (the C code writes the `sps` fields only then).
The C locals `hsub = (chroma_format_idc == 1 || chroma_format_idc == 2)`,
`vsub = (chroma_format_idc == 1)`, `sx = 1 << hsub` and
`sy = (2 - frame_mbs_only_flag) << vsub` are inlined at their use sites. -/
def decode_crop (gb : Getbit) (chroma_format_idc frame_mbs_only_flag width height : Nat) :
    Nat × (Nat × Nat × Nat × Nat) × Getbit :=
  match get_ue_golomb gb with
  | (e1, crop_left, gb) =>
  match get_ue_golomb gb with
  | (e2, crop_right, gb) =>
  match get_ue_golomb gb with
  | (e3, crop_top, gb) =>
  match get_ue_golomb gb with
  | (e4, crop_bottom, gb) =>
  if e1 ||| e2 ||| e3 ||| e4 ≠ 0 then (e1 ||| e2 ||| e3 ||| e4, (0, 0, 0, 0), gb)
  else if umul (uadd crop_left crop_right)
            (1 <<< (if chroma_format_idc = 1 ∨ chroma_format_idc = 2 then 1 else 0)) ≥ width ∨
          umul (uadd crop_top crop_bottom)
            ((2 - frame_mbs_only_flag) <<< (if chroma_format_idc = 1 then 1 else 0)) ≥ height then
    (EBADMSG, (0, 0, 0, 0), gb)
  else
    (0, (umul (1 <<< (if chroma_format_idc = 1 ∨ chroma_format_idc = 2 then 1 else 0)) crop_left,
         umul (1 <<< (if chroma_format_idc = 1 ∨ chroma_format_idc = 2 then 1 else 0)) crop_right,
         umul ((2 - frame_mbs_only_flag) <<< (if chroma_format_idc = 1 then 1 else 0)) crop_top,
         umul ((2 - frame_mbs_only_flag) <<< (if chroma_format_idc = 1 then 1 else 0)) crop_bottom),
        gb)

/-- `struct h264_sps` from sps.h. -/
structure h264_sps where
  profile_idc : Nat
  level_idc : Nat
  seq_parameter_set_id : Nat
  chroma_format_idc : Nat
  log2_max_frame_num : Nat
  pic_order_cnt_type : Nat
  max_num_ref_frames : Nat
  pic_width_in_mbs : Nat
  pic_height_in_map_units : Nat
  frame_cropping_flg : Bool
  frame_crop_left_offset : Nat
  frame_crop_right_offset : Nat
  frame_crop_top_offset : Nat
  frame_crop_bottom_offset : Nat
  width_cropped : Nat
  height_cropped : Nat
  width : Nat
  height : Nat
deriving Repr, DecidableEq

/-- The record produced by `memset(sps, 0, sizeof(*sps))`. -/
def sps_zero : h264_sps :=
  { profile_idc := 0, level_idc := 0, seq_parameter_set_id := 0,
    chroma_format_idc := 0, log2_max_frame_num := 0, pic_order_cnt_type := 0,
    max_num_ref_frames := 0, pic_width_in_mbs := 0,
    pic_height_in_map_units := 0, frame_cropping_flg := false,
    frame_crop_left_offset := 0, frame_crop_right_offset := 0,
    frame_crop_top_offset := 0, frame_crop_bottom_offset := 0,
    width_cropped := 0, height_cropped := 0, width := 0, height := 0 }

/-- `h264_sps_decode` (sps.c line 133).  The caller's record is passed in and
the returned record is its state in memory after the call: the C function
writes through the `sps` pointer, `memset` zeroes it as soon as the length
check passes, and individual fields are filled in as decoding progresses, so
a failing call can leave a partially-populated record.  The C code's single
mutable cursor and record are written here in static single-assignment
style: the cursors bound by successive reads are `gb1`, `gb2`, ..., and each
return site spells out the record fields written so far as one update of the
`memset` state `sps_zero` (fields the C code has not yet written hold their
`memset` value 0/false, so the final no-crop record's crop offsets appear as
literal zeros).  Null-pointer arguments are not representable in this
embedding; the `len < 3` check is. -/
def h264_sps_decode (sps : h264_sps) (buf : List Nat) (len : Nat) : Nat × h264_sps :=
  if len < 3 then (EINVAL, sps)
  else
  match get_ue_golomb (getbit_init (buf.drop 3) ((len - 3) * 8)) with
  | (e1, seq_parameter_set_id, gb1) =>
  if e1 ≠ 0 then
    (e1, { sps_zero with
      level_idc := buf.getD 2 0 % 256 })
  else if seq_parameter_set_id ≥ MAX_SPS_COUNT then
    (EBADMSG, { sps_zero with
      level_idc := buf.getD 2 0 % 256 })
  else
  match (if profile_is_high (buf.getD 0 0 % 256) then decode_high_profile gb1
         else (0, 1, gb1) : Nat × Nat × Getbit) with
  | (e2, chroma_format_idc, gb2) =>
  if e2 ≠ 0 then
    (e2, { sps_zero with
      level_idc := buf.getD 2 0 % 256 })
  else
  match get_ue_golomb gb2 with
  | (e3, v3, gb3) =>
  if e3 ≠ 0 then
    (e3, { sps_zero with
      level_idc := buf.getD 2 0 % 256 })
  else if uadd v3 4 > MAX_LOG2_MAX_FRAME_NUM then
    (EBADMSG, { sps_zero with
      level_idc := buf.getD 2 0 % 256,
      log2_max_frame_num := uadd v3 4 })
  else
  match get_ue_golomb gb3 with
  | (e4, v4, gb4) =>
  if e4 ≠ 0 then
    (e4, { sps_zero with
      level_idc := buf.getD 2 0 % 256,
      log2_max_frame_num := uadd v3 4 })
  else
  match poc_phase gb4 v4 with
  | (e5, gb5) =>
  if e5 ≠ 0 then
    (e5, { sps_zero with
      level_idc := buf.getD 2 0 % 256,
      log2_max_frame_num := uadd v3 4,
      pic_order_cnt_type := v4 })
  else
  match get_ue_golomb gb5 with
  | (e6, v6, gb6) =>
  if e6 ≠ 0 then
    (e6, { sps_zero with
      level_idc := buf.getD 2 0 % 256,
      log2_max_frame_num := uadd v3 4,
      pic_order_cnt_type := v4 })
  else if getbit_get_left gb6 < 1 then
    (EBADMSG, { sps_zero with
      level_idc := buf.getD 2 0 % 256,
      log2_max_frame_num := uadd v3 4,
      pic_order_cnt_type := v4,
      max_num_ref_frames := v6 })
  else
  match get_ue_golomb (get_bit gb6).2 with
  | (e7, mb_w_m1, gb7) =>
  match get_ue_golomb gb7 with
  | (e8, mb_h_m1, gb8) =>
  if e7 ||| e8 ≠ 0 then
    (e7 ||| e8, { sps_zero with
      level_idc := buf.getD 2 0 % 256,
      log2_max_frame_num := uadd v3 4,
      pic_order_cnt_type := v4,
      max_num_ref_frames := v6 })
  else if getbit_get_left gb8 < 1 then
    (EBADMSG, { sps_zero with
      level_idc := buf.getD 2 0 % 256,
      log2_max_frame_num := uadd v3 4,
      pic_order_cnt_type := v4,
      max_num_ref_frames := v6 })
  else if uadd mb_w_m1 1 ≥ MAX_MACROBLOCKS ∨
          umul (uadd mb_h_m1 1) (2 - (get_bit gb8).1) ≥ MAX_MACROBLOCKS then
    (EBADMSG, { sps_zero with
      level_idc := buf.getD 2 0 % 256,
      log2_max_frame_num := uadd v3 4,
      pic_order_cnt_type := v4,
      max_num_ref_frames := v6,
      pic_width_in_mbs := uadd mb_w_m1 1,
      pic_height_in_map_units := umul (uadd mb_h_m1 1) (2 - (get_bit gb8).1) })
  else
  match adaptive_phase (get_bit gb8).2 (get_bit gb8).1 with
  | (e9, gb9) =>
  if e9 ≠ 0 then
    (e9, { sps_zero with
      level_idc := buf.getD 2 0 % 256,
      log2_max_frame_num := uadd v3 4,
      pic_order_cnt_type := v4,
      max_num_ref_frames := v6,
      pic_width_in_mbs := uadd mb_w_m1 1,
      pic_height_in_map_units := umul (uadd mb_h_m1 1) (2 - (get_bit gb8).1) })
  else if getbit_get_left gb9 < 1 then
    (EBADMSG, { sps_zero with
      level_idc := buf.getD 2 0 % 256,
      log2_max_frame_num := uadd v3 4,
      pic_order_cnt_type := v4,
      max_num_ref_frames := v6,
      pic_width_in_mbs := uadd mb_w_m1 1,
      pic_height_in_map_units := umul (uadd mb_h_m1 1) (2 - (get_bit gb8).1) })
  else if getbit_get_left (get_bit gb9).2 < 1 then
    (EBADMSG, { sps_zero with
      level_idc := buf.getD 2 0 % 256,
      log2_max_frame_num := uadd v3 4,
      pic_order_cnt_type := v4,
      max_num_ref_frames := v6,
      pic_width_in_mbs := uadd mb_w_m1 1,
      pic_height_in_map_units := umul (uadd mb_h_m1 1) (2 - (get_bit gb8).1) })
  else
  match (if ((get_bit (get_bit gb9).2).1 != 0 : Bool) then
           decode_crop (get_bit (get_bit gb9).2).2 chroma_format_idc (get_bit gb8).1
             (umul MACROBLOCK_SIZE (uadd mb_w_m1 1))
             (umul MACROBLOCK_SIZE (umul (uadd mb_h_m1 1) (2 - (get_bit gb8).1)))
         else (0, (0, 0, 0, 0), (get_bit (get_bit gb9).2).2) :
          Nat × (Nat × Nat × Nat × Nat) × Getbit) with
  | (e10, offs, _) =>
  if e10 ≠ 0 then
    (e10, { sps_zero with
      level_idc := buf.getD 2 0 % 256,
      log2_max_frame_num := uadd v3 4,
      pic_order_cnt_type := v4,
      max_num_ref_frames := v6,
      pic_width_in_mbs := uadd mb_w_m1 1,
      pic_height_in_map_units := umul (uadd mb_h_m1 1) (2 - (get_bit gb8).1),
      frame_cropping_flg := ((get_bit (get_bit gb9).2).1 != 0),
      width := umul MACROBLOCK_SIZE (uadd mb_w_m1 1),
      height := umul MACROBLOCK_SIZE (umul (uadd mb_h_m1 1) (2 - (get_bit gb8).1)) })
  else if ((get_bit (get_bit gb9).2).1 != 0 : Bool) then
    (0, { sps_zero with
      level_idc := buf.getD 2 0 % 256,
      log2_max_frame_num := uadd v3 4,
      pic_order_cnt_type := v4,
      max_num_ref_frames := v6,
      pic_width_in_mbs := uadd mb_w_m1 1,
      pic_height_in_map_units := umul (uadd mb_h_m1 1) (2 - (get_bit gb8).1),
      frame_cropping_flg := ((get_bit (get_bit gb9).2).1 != 0),
      width := umul MACROBLOCK_SIZE (uadd mb_w_m1 1),
      height := umul MACROBLOCK_SIZE (umul (uadd mb_h_m1 1) (2 - (get_bit gb8).1)),
      frame_crop_left_offset := offs.1,
      frame_crop_right_offset := offs.2.1,
      frame_crop_top_offset := offs.2.2.1,
      frame_crop_bottom_offset := offs.2.2.2,
      profile_idc := buf.getD 0 0 % 256,
      seq_parameter_set_id := seq_parameter_set_id % 256,
      chroma_format_idc := chroma_format_idc % 256,
      width_cropped :=
        usub (usub (umul MACROBLOCK_SIZE (uadd mb_w_m1 1)) offs.1) offs.2.1,
      height_cropped :=
        usub (usub (umul MACROBLOCK_SIZE
            (umul (uadd mb_h_m1 1) (2 - (get_bit gb8).1))) offs.2.2.1) offs.2.2.2 })
  else
    (0, { sps_zero with
      level_idc := buf.getD 2 0 % 256,
      log2_max_frame_num := uadd v3 4,
      pic_order_cnt_type := v4,
      max_num_ref_frames := v6,
      pic_width_in_mbs := uadd mb_w_m1 1,
      pic_height_in_map_units := umul (uadd mb_h_m1 1) (2 - (get_bit gb8).1),
      frame_cropping_flg := ((get_bit (get_bit gb9).2).1 != 0),
      width := umul MACROBLOCK_SIZE (uadd mb_w_m1 1),
      height := umul MACROBLOCK_SIZE (umul (uadd mb_h_m1 1) (2 - (get_bit gb8).1)),
      profile_idc := buf.getD 0 0 % 256,
      seq_parameter_set_id := seq_parameter_set_id % 256,
      chroma_format_idc := chroma_format_idc % 256,
      width_cropped :=
        usub (usub (umul MACROBLOCK_SIZE (uadd mb_w_m1 1)) 0) 0,
      height_cropped :=
        usub (usub (umul MACROBLOCK_SIZE
            (umul (uadd mb_h_m1 1) (2 - (get_bit gb8).1))) 0) 0 })

/-- Fuel-driven floor of the base-2 logarithm (the fuel argument makes the
division-by-2 recursion structural, so the function evaluates inside the
kernel; `log2_go_bounds` proves the defining property). -/
def log2_go : Nat → Nat → Nat
  | 0, _ => 0
  | fuel+1, k => if 2 ≤ k then log2_go fuel (k / 2) + 1 else 0

/-- Floor of the base-2 logarithm (0 for inputs 0 and 1). -/
def log2f (k : Nat) : Nat := log2_go k k

/-- Modelled from the spec: the `m` low-order binary digits of `k`, most
significant bit first (the repository contains no Exp-Golomb encoder, so the
encoding side of the round-trip property is built from the spec's words). -/
def bin_be (k : Nat) : Nat → List Nat
  | 0 => []
  | m+1 => ((k >>> m) &&& 1) :: bin_be k m

/-- Modelled from the spec: the standard Exp-Golomb encoding of `v` —
`log2(v+1)` zero bits followed by the binary of `v+1` on `log2(v+1)+1`
bits, so that encode 0 = [1], encode 1 = [0,1,0], encode 2 = [0,1,1],
encode 3 = [0,0,1,0,0]. -/
def ue_encode (v : Nat) : List Nat :=
  List.replicate (log2f (v + 1)) 0 ++ bin_be (v + 1) (log2f (v + 1) + 1)

/-- C1: decoding the 5-byte buffer `[0x42, 0x00, 0x1E, 0xDD, 0xE0]` succeeds
(returns 0) and produces exactly the record with profile_idc=66,
level_idc=30, seq_parameter_set_id=0, chroma_format_idc=1,
log2_max_frame_num=4, pic_order_cnt_type=2, max_num_ref_frames=0,
pic_width_in_mbs=1, pic_height_in_map_units=1, width=16, height=16,
width_cropped=16, height_cropped=16, frame_cropping_flg=false (and all four
crop offsets 0), whatever the caller's record held beforehand. -/
theorem sps_decode_example_bytes (sps : h264_sps) :
    h264_sps_decode sps [0x42, 0x00, 0x1E, 0xDD, 0xE0] 5 =
      (0, { profile_idc := 66, level_idc := 30, seq_parameter_set_id := 0,
            chroma_format_idc := 1, log2_max_frame_num := 4,
            pic_order_cnt_type := 2, max_num_ref_frames := 0,
            pic_width_in_mbs := 1, pic_height_in_map_units := 1,
            frame_cropping_flg := false, frame_crop_left_offset := 0,
            frame_crop_right_offset := 0, frame_crop_top_offset := 0,
            frame_crop_bottom_offset := 0, width_cropped := 16,
            height_cropped := 16, width := 16, height := 16 }) := rfl

/-- C3 counterexample: a failed decode does modify the caller's record.  With
the caller's record holding profile_idc=5 and the 3-byte buffer
`[0x42, 0x00, 0x1E]` (no payload bits, so the first Golomb read fails), the
call returns EBADMSG yet the record has been zeroed and level_idc set to 30,
so it differs from what the caller supplied. -/
theorem sps_decode_failure_modifies_record :
    (h264_sps_decode { sps_zero with profile_idc := 5 } [0x42, 0x00, 0x1E] 3).1 = EBADMSG ∧
    (h264_sps_decode { sps_zero with profile_idc := 5 } [0x42, 0x00, 0x1E] 3).2 ≠
      { sps_zero with profile_idc := 5 } := by
  constructor
  · rfl
  · decide

/-- C3 amended: only the `InvalidInput` (EINVAL) rejection for a too-short
buffer leaves the caller's record untouched; once `len >= 3` the decoder
zeroes the record and fills fields as it goes, so failed calls can leave a
partially-populated record and only a 0 return guarantees a complete one. -/
theorem sps_decode_einval_leaves_record (sps : h264_sps) (buf : List Nat) (len : Nat)
    (h : len < 3) : h264_sps_decode sps buf len = (EINVAL, sps) := by
  unfold h264_sps_decode
  rw [if_pos h]

/-- Witness for `sps_decode_einval_leaves_record` at a concrete input. -/
theorem sps_decode_einval_leaves_record_witness :
    h264_sps_decode sps_zero [] 0 = (EINVAL, sps_zero) :=
  sps_decode_einval_leaves_record sps_zero [] 0 (by decide)

/-- C5: the code does not reject a leading-zero run of 32 zeros.  On a
9-byte cursor holding 32 zero bits, a 1 bit, and 32 zero suffix bits,
`get_ue_golomb` returns success (0), not EBADMSG; in C the computation
`1 << zeros` with `zeros = 32` is undefined behaviour, and under the
mod-2^32 semantics of this embedding the accumulated value wraps to
4294967295 after consuming 65 bits. -/
theorem ue_golomb_32_zero_run_not_rejected :
    get_ue_golomb ⟨[0, 0, 0, 0, 0x80, 0, 0, 0, 0], 0, 72⟩ =
      (0, 4294967295, ⟨[0, 0, 0, 0, 0x80, 0, 0, 0, 0], 65, 72⟩) := rfl

/-- C6: a successful decode can return `pic_height_in_map_units = 0`.  The
13-byte input below encodes `pic_height_in_map_units_minus1 = 2^31 - 1`
(31 leading zeros, defined unsigned arithmetic throughout) and
`frame_mbs_only_flag = 0`, so the doubling `(2^31) * 2` wraps to 0 mod 2^32,
slips past the `MAX_MACROBLOCKS` guard, and the call succeeds with a
zero-height record, contradicting the `>= 1` invariant. -/
theorem sps_decode_zero_height_success :
    (h264_sps_decode sps_zero
        [0x42, 0x00, 0x1E, 0xDD, 0x00, 0x00, 0x00, 0x01, 0x00, 0x00, 0x00, 0x00, 0x00]
        13).1 = 0 ∧
    (h264_sps_decode sps_zero
        [0x42, 0x00, 0x1E, 0xDD, 0x00, 0x00, 0x00, 0x01, 0x00, 0x00, 0x00, 0x00, 0x00]
        13).2.pic_height_in_map_units = 0 ∧
    (h264_sps_decode sps_zero
        [0x42, 0x00, 0x1E, 0xDD, 0x00, 0x00, 0x00, 0x01, 0x00, 0x00, 0x00, 0x00, 0x00]
        13).2.height = 0 := by
  refine ⟨rfl, rfl, rfl⟩

/-- C9 counterexample: an exhausted single-bit read does not report failure.
On the cursor `⟨[0], 0, 0⟩` with `bits_remaining = 0`, `get_bit` returns the
ordinary bit value 0 with the cursor unchanged — the very same value
component an in-bounds read of a 0 bit produces — so the caller receives a
bit value, not an error. -/
theorem get_bit_exhausted_returns_bit_value :
    getbit_get_left ⟨[0], 0, 0⟩ = 0 ∧
    get_bit ⟨[0], 0, 0⟩ = (0, ⟨[0], 0, 0⟩) ∧
    (get_bit ⟨[0], 0, 0⟩).1 = (get_bit ⟨[0], 0, 8⟩).1 := by
  refine ⟨rfl, rfl, rfl⟩

/-- C9 amended: when `bits_remaining() = 0`, `get_bit` returns 0 without
advancing the cursor (logging a diagnostic to stderr); exhaustion is not
reported through the return value, and callers must detect it with
`getbit_get_left` checks before reading. -/
theorem get_bit_exhausted_returns_zero (gb : Getbit)
    (h : getbit_get_left gb = 0) : get_bit gb = (0, gb) := by
  have hle : gb.endp ≤ gb.pos := by
    unfold getbit_get_left at h
    split at h <;> omega
  unfold get_bit
  rw [if_pos hle]

/-- Witness for `get_bit_exhausted_returns_zero` at a concrete input. -/
theorem get_bit_exhausted_returns_zero_witness :
    get_bit ⟨[], 3, 3⟩ = (0, ⟨[], 3, 3⟩) :=
  get_bit_exhausted_returns_zero ⟨[], 3, 3⟩ (by decide)

/-- C10: the decode never looks at byte 1 (the constraint-flag byte): for any
two buffers of length at least 3 that agree everywhere except at index 1,
the whole result — error code and record — is identical, for every declared
length. -/
theorem sps_decode_ignores_byte_one (sps : h264_sps) (b0 b1 b1' b2 : Nat)
    (rest : List Nat) (len : Nat) :
    h264_sps_decode sps (b0 :: b1 :: b2 :: rest) len =
      h264_sps_decode sps (b0 :: b1' :: b2 :: rest) len := by
  have h0 : (b0 :: b1 :: b2 :: rest).getD 0 0 = (b0 :: b1' :: b2 :: rest).getD 0 0 := rfl
  have h2 : (b0 :: b1 :: b2 :: rest).getD 2 0 = (b0 :: b1' :: b2 :: rest).getD 2 0 := rfl
  have hd : (b0 :: b1 :: b2 :: rest).drop 3 = (b0 :: b1' :: b2 :: rest).drop 3 := rfl
  unfold h264_sps_decode
  rw [h0, h2, hd]

/-- Bits remaining is the truncated difference of length and position. -/
theorem getbit_get_left_eq (gb : Getbit) : getbit_get_left gb = gb.endp - gb.pos := by
  unfold getbit_get_left
  split <;> omega

/-- An in-bounds `get_bit` reads `bit_at` and advances the position. -/
theorem get_bit_of_lt {gb : Getbit} (h : gb.pos < gb.endp) :
    get_bit gb = (bit_at gb.buf gb.pos, ⟨gb.buf, gb.pos + 1, gb.endp⟩) := by
  unfold get_bit bit_at
  rw [if_neg (by omega)]

/-- A single extracted bit is at most 1. -/
theorem bit_at_le_one (buf : List Nat) (i : Nat) : bit_at buf i ≤ 1 := by
  unfold bit_at
  rw [Nat.and_one_is_mod]
  omega

/-- The fuel-driven logarithm satisfies the floor-log2 bounds whenever the
fuel dominates the argument. -/
theorem log2_go_bounds : ∀ fuel k, 1 ≤ k → k ≤ fuel →
    2 ^ log2_go fuel k ≤ k ∧ k < 2 ^ (log2_go fuel k + 1) := by
  intro fuel
  induction fuel with
  | zero => intro k h1 hk; omega
  | succ fuel ih =>
    intro k h1 hk
    by_cases h2 : 2 ≤ k
    · have hrec := ih (k / 2) (by omega) (by omega)
      simp only [log2_go, if_pos h2]
      set g := log2_go fuel (k / 2) with hg
      have e1 : (2:Nat) ^ (g + 1) = 2 * 2 ^ g := by rw [Nat.pow_succ]; ring
      have e2 : (2:Nat) ^ (g + 1 + 1) = 4 * 2 ^ g := by rw [Nat.pow_succ, Nat.pow_succ]; ring
      omega
    · simp only [log2_go, if_neg h2]
      omega

/-- Floor-log2 bounds for `log2f`. -/
theorem log2f_bounds {k : Nat} (h1 : 1 ≤ k) :
    2 ^ log2f k ≤ k ∧ k < 2 ^ (log2f k + 1) :=
  log2_go_bounds k k h1 (Nat.le_refl k)

/-- `bin_be` produces exactly `m` bits. -/
theorem bin_be_length (k m : Nat) : (bin_be k m).length = m := by
  induction m with
  | zero => rfl
  | succ m ih => simp [bin_be, ih]

/-- The bit at index `idx` of `bin_be k m` is binary digit `m - 1 - idx` of `k`. -/
theorem bin_be_getD (k : Nat) : ∀ m idx, idx < m →
    (bin_be k m).getD idx 0 = (k >>> (m - 1 - idx)) &&& 1 := by
  intro m
  induction m with
  | zero => intro idx h; omega
  | succ m ih =>
    intro idx h
    cases idx with
    | zero =>
      rw [show m + 1 - 1 - 0 = m by omega]
      simp [bin_be]
    | succ j =>
      rw [show m + 1 - 1 - (j + 1) = m - 1 - j by omega]
      simp only [bin_be, List.getD_cons_succ]
      exact ih j (by omega)

/-- `getD` on a replicated zero list is zero. -/
theorem getD_replicate_zero (n j : Nat) : (List.replicate n (0:Nat)).getD j 0 = 0 := by
  induction n generalizing j with
  | zero => simp [List.getD]
  | succ n ih =>
    cases j with
    | zero => simp [List.replicate_succ]
    | succ j => simp [List.replicate_succ, ih j]

/-- Length of the spec-modelled encoding. -/
theorem ue_encode_length (v : Nat) :
    (ue_encode v).length = 2 * log2f (v + 1) + 1 := by
  simp [ue_encode, bin_be_length]
  omega

/-- The first `log2f (v+1)` encoded bits are zero. -/
theorem ue_encode_getD_zero (v j : Nat) (h : j < log2f (v + 1)) :
    (ue_encode v).getD j 0 = 0 := by
  unfold ue_encode
  rw [List.getD_append _ _ _ _ (by simpa using h)]
  exact getD_replicate_zero _ j

/-- The encoded bits after the zero run are the binary digits of `v+1`. -/
theorem ue_encode_getD_bin (v i : Nat) (h : i < log2f (v + 1) + 1) :
    (ue_encode v).getD (log2f (v + 1) + i) 0 =
      ((v + 1) >>> (log2f (v + 1) - i)) &&& 1 := by
  unfold ue_encode
  rw [List.getD_append_right _ _ _ _ (by simp)]
  rw [show log2f (v + 1) + i - (List.replicate (log2f (v + 1)) (0:Nat)).length = i by simp]
  rw [bin_be_getD (v + 1) (log2f (v + 1) + 1) i h]
  rw [show log2f (v + 1) + 1 - 1 - i = log2f (v + 1) - i by omega]

/-- A bit (at most 1) shifted into position, or-ed onto a value whose low
bits are free, is just an addition. -/
theorem or_shiftLeft_eq_add {b n c : Nat} (hb : b ≤ 1) (hc : c < 2 ^ n) :
    (b <<< n) ||| c = b * 2 ^ n + c := by
  rcases Nat.le_one_iff_eq_zero_or_eq_one.mp hb with rfl | rfl
  · simp [Nat.zero_shiftLeft]
  · rw [Nat.shiftLeft_eq, Nat.one_mul]
    have h := Nat.mul_add_lt_is_or hc 1
    rw [Nat.mul_one] at h
    exact h.symm

/-- The leading-zero scan on a cursor whose next `k` bits are zero followed
by a 1 bit: it succeeds, adds `k` to the running count, and leaves the
cursor just past the terminating 1 bit (valid for any fuel above `k`). -/
theorem scan_go_spec (k : Nat) : ∀ (fuel : Nat) (gb : Getbit) (zeros : Nat),
    k < fuel → gb.pos + k < gb.endp →
    (∀ j, j < k → bit_at gb.buf (gb.pos + j) = 0) →
    bit_at gb.buf (gb.pos + k) = 1 →
    scan_go fuel zeros gb = (0, zeros + k, ⟨gb.buf, gb.pos + k + 1, gb.endp⟩) := by
  induction k with
  | zero =>
    intro fuel gb zeros hf hlt _ hone
    obtain ⟨f, rfl⟩ : ∃ f, fuel = f + 1 := ⟨fuel - 1, by omega⟩
    have hp : gb.pos < gb.endp := by omega
    have h1 : bit_at gb.buf gb.pos = 1 := by
      have := hone; rwa [Nat.add_zero] at this
    unfold scan_go
    rw [get_bit_of_lt hp, if_neg (by rw [getbit_get_left_eq]; omega),
      if_neg (by simp [h1])]
    simp
  | succ k ih =>
    intro fuel gb zeros hf hlt hz hone
    obtain ⟨f, rfl⟩ : ∃ f, fuel = f + 1 := ⟨fuel - 1, by omega⟩
    have hp : gb.pos < gb.endp := by omega
    have h0 : bit_at gb.buf gb.pos = 0 := by
      have := hz 0 (by omega); rwa [Nat.add_zero] at this
    unfold scan_go
    rw [get_bit_of_lt hp, if_neg (by rw [getbit_get_left_eq]; omega),
      if_pos (by simp [h0])]
    have hrec := ih f ⟨gb.buf, gb.pos + 1, gb.endp⟩ (zeros + 1) (by omega)
      (by simp; omega)
      (by intro j hj
          have := hz (j + 1) (by omega)
          simpa [show gb.pos + 1 + j = gb.pos + (j + 1) by omega] using this)
      (by simpa [show gb.pos + 1 + k = gb.pos + (k + 1) by omega] using hone)
    simp only at hrec
    rw [hrec]
    have e1 : zeros + 1 + k = zeros + (k + 1) := by omega
    have e2 : gb.pos + 1 + k + 1 = gb.pos + (k + 1) + 1 := by omega
    rw [e1, e2]

/-- The suffix loop on a cursor whose next `m` bits are the `m` low binary
digits of `k` (most significant first): it succeeds, ors `k % 2^m` onto the
accumulator, and advances the cursor by `m` bits (no 32-bit wrap occurs for
`m < 32`). -/
theorem read_suffix_spec : ∀ (m : Nat) (k : Nat) (gb : Getbit) (info : Nat),
    m < 32 → gb.pos + m ≤ gb.endp →
    (∀ j, j < m → bit_at gb.buf (gb.pos + j) = (k >>> (m - 1 - j)) &&& 1) →
    read_suffix m info gb = (0, info ||| (k % 2 ^ m), ⟨gb.buf, gb.pos + m, gb.endp⟩) := by
  intro m
  induction m with
  | zero =>
    intro k gb info _ _ _
    unfold read_suffix
    simp [Nat.mod_one]
  | succ m ih =>
    intro k gb info h32 hle hbits
    have hp : gb.pos < gb.endp := by omega
    have hb0 : bit_at gb.buf gb.pos = (k >>> m) &&& 1 := by
      have := hbits 0 (by omega)
      rwa [Nat.add_zero, show m + 1 - 1 - 0 = m by omega] at this
    unfold read_suffix
    rw [get_bit_of_lt hp, if_neg (by rw [getbit_get_left_eq]; omega)]
    simp only
    rw [hb0]
    have hble : (k >>> m) &&& 1 ≤ 1 := by rw [Nat.and_one_is_mod]; omega
    have hshift_lt : ((k >>> m) &&& 1) <<< m < U32 := by
      rw [Nat.shiftLeft_eq]
      calc ((k >>> m) &&& 1) * 2 ^ m ≤ 1 * 2 ^ m := by
            exact Nat.mul_le_mul_right _ hble
        _ < U32 := by
            rw [Nat.one_mul]
            have : (2:Nat) ^ m < 2 ^ 32 := Nat.pow_lt_pow_right (by omega) (by omega)
            unfold U32
            omega
    rw [Nat.mod_eq_of_lt hshift_lt]
    have hrec := ih k ⟨gb.buf, gb.pos + 1, gb.endp⟩
      (info ||| (((k >>> m) &&& 1) <<< m)) (by omega) (by simp; omega)
      (by intro j hj
          have := hbits (j + 1) (by omega)
          rw [show gb.pos + (j + 1) = gb.pos + 1 + j by omega,
            show m + 1 - 1 - (j + 1) = m - 1 - j by omega] at this
          exact this)
    simp only at hrec
    rw [hrec]
    have hmerge : (info ||| (((k >>> m) &&& 1) <<< m)) ||| (k % 2 ^ m) =
        info ||| (k % 2 ^ (m + 1)) := by
      rw [Nat.or_assoc]
      congr 1
      rw [or_shiftLeft_eq_add hble (Nat.mod_lt _ (Nat.two_pow_pos m))]
      rw [Nat.shiftRight_eq_div_pow, Nat.and_one_is_mod]
      rw [Nat.mod_pow_succ]
      ring
    rw [hmerge, show gb.pos + 1 + m = gb.pos + (m + 1) by omega]

/-- Composition rule for `get_ue_golomb` when both internal loops succeed. -/
theorem get_ue_golomb_of_scan_suffix {gb gb1 gb2 : Getbit} {n info : Nat}
    (h1 : scan_zeros gb = (0, n, gb1))
    (h2 : read_suffix n ((1 <<< n) % U32) gb1 = (0, info, gb2)) :
    get_ue_golomb gb = (0, (info + (U32 - 1)) % U32, gb2) := by
  unfold get_ue_golomb
  rw [h1]
  simp [h2]

/-- Decoding the spec-modelled Exp-Golomb encoding of `v < 2^16` placed at
the cursor yields exactly `v` and consumes exactly the encoding's bits. -/
theorem ue_golomb_decode_encode (v : Nat) (gb : Getbit) (hv : v < 65536)
    (hlen : gb.pos + (ue_encode v).length ≤ gb.endp)
    (hbits : ∀ j, j < (ue_encode v).length →
      bit_at gb.buf (gb.pos + j) = (ue_encode v).getD j 0) :
    get_ue_golomb gb = (0, v, ⟨gb.buf, gb.pos + (ue_encode v).length, gb.endp⟩) := by
  obtain ⟨hlow, hhigh⟩ := log2f_bounds (k := v + 1) (by omega)
  set n := log2f (v + 1) with hn
  have hn16 : n ≤ 16 := by
    by_contra hc
    push_neg at hc
    have hp : (2:Nat) ^ 17 ≤ 2 ^ n := Nat.pow_le_pow_right (by omega) (by omega)
    have h17 : (2:Nat) ^ 17 = 131072 := by norm_num
    omega
  have hlength : (ue_encode v).length = 2 * n + 1 := ue_encode_length v
  rw [hlength] at hlen
  simp only [hlength] at hbits
  have hpow_succ : (2:Nat) ^ (n + 1) = 2 ^ n * 2 := by rw [Nat.pow_succ]
  have hscan := scan_go_spec n (getbit_get_left gb + 1) gb 0
    (by rw [getbit_get_left_eq]; omega)
    (by omega)
    (by intro j hj
        rw [hbits j (by omega)]
        exact ue_encode_getD_zero v j hj)
    (by rw [hbits n (by omega)]
        have hb := ue_encode_getD_bin v 0 (by omega)
        rw [Nat.add_zero, Nat.sub_zero] at hb
        rw [hb, Nat.shiftRight_eq_div_pow, Nat.and_one_is_mod]
        have hdiv : (v + 1) / 2 ^ n = 1 :=
          Nat.div_eq_of_lt_le (by omega) (by omega)
        rw [hdiv])
  have hsc : scan_zeros gb = (0, n, ⟨gb.buf, gb.pos + n + 1, gb.endp⟩) := by
    unfold scan_zeros
    rw [hscan]
    norm_num
  have hsuffix := read_suffix_spec n (v + 1) ⟨gb.buf, gb.pos + n + 1, gb.endp⟩
    ((1 <<< n) % U32) (by omega) (by simp; omega)
    (by intro j hj
        simp only
        have hb := hbits (n + 1 + j) (by omega)
        rw [show gb.pos + (n + 1 + j) = gb.pos + n + 1 + j by omega] at hb
        rw [hb]
        have he := ue_encode_getD_bin v (1 + j) (by omega)
        rw [show n + (1 + j) = n + 1 + j by omega] at he
        rw [he, show n - (1 + j) = n - 1 - j by omega])
  have hinfo : ((1 <<< n) % U32) ||| ((v + 1) % 2 ^ n) = v + 1 := by
    rw [Nat.one_shiftLeft]
    rw [Nat.mod_eq_of_lt (show (2:Nat) ^ n < U32 by
      have hle : (2:Nat) ^ n ≤ 2 ^ 16 := Nat.pow_le_pow_right (by omega) hn16
      unfold U32
      norm_num at hle ⊢
      omega)]
    have hor := Nat.mul_add_lt_is_or
      (show (v + 1) % 2 ^ n < 2 ^ n from Nat.mod_lt _ (Nat.two_pow_pos n)) 1
    rw [Nat.mul_one] at hor
    rw [← hor, Nat.mod_eq_sub_mod hlow, Nat.mod_eq_of_lt (by omega)]
    omega
  rw [hinfo] at hsuffix
  have hval : (v + 1 + (U32 - 1)) % U32 = v := by
    rw [show v + 1 + (U32 - 1) = v + U32 from by unfold U32; omega,
      Nat.add_mod_right]
    exact Nat.mod_eq_of_lt (by unfold U32; omega)
  rw [get_ue_golomb_of_scan_suffix hsc hsuffix, hval, hlength,
    show gb.pos + n + 1 + n = gb.pos + (2 * n + 1) by omega]

/-- C4: for every `v` in [0, 2^16), decoding the standard Exp-Golomb
encoding of `v` with `get_ue_golomb` yields exactly `v` and consumes
exactly the encoding's bits (the decoder computes `(1 << zeros | suffix) -
1`), and the fixed points decode "1" = 0, decode "010" = 1, decode "011" =
2, decode "00100" = 3 hold on concrete cursors. -/
theorem ue_golomb_roundtrip :
    (∀ (v : Nat) (gb : Getbit), v < 65536 →
        gb.pos + (ue_encode v).length ≤ gb.endp →
        (∀ j, j < (ue_encode v).length →
          bit_at gb.buf (gb.pos + j) = (ue_encode v).getD j 0) →
        get_ue_golomb gb = (0, v, ⟨gb.buf, gb.pos + (ue_encode v).length, gb.endp⟩)) ∧
    get_ue_golomb ⟨[0x80], 0, 1⟩ = (0, 0, ⟨[0x80], 1, 1⟩) ∧
    get_ue_golomb ⟨[0x40], 0, 3⟩ = (0, 1, ⟨[0x40], 3, 3⟩) ∧
    get_ue_golomb ⟨[0x60], 0, 3⟩ = (0, 2, ⟨[0x60], 3, 3⟩) ∧
    get_ue_golomb ⟨[0x20], 0, 5⟩ = (0, 3, ⟨[0x20], 5, 5⟩) :=
  ⟨fun v gb hv hlen hbits => ue_golomb_decode_encode v gb hv hlen hbits,
   rfl, rfl, rfl, rfl⟩

/-- Witness for `ue_golomb_roundtrip` at `v = 1` on the byte `0x40`. -/
theorem ue_golomb_roundtrip_witness :
    get_ue_golomb ⟨[0x40], 0, 8⟩ = (0, 1, ⟨[0x40], 3, 8⟩) :=
  ue_golomb_roundtrip.1 1 ⟨[0x40], 0, 8⟩ (by decide) (by decide) (by decide)

/-- The `err |=` chaining of the C code maps pairs of {0, EBADMSG} codes
into the same set. -/
theorem or_err {a b : Nat} (ha : a = 0 ∨ a = EBADMSG) (hb : b = 0 ∨ b = EBADMSG) :
    a ||| b = 0 ∨ a ||| b = EBADMSG := by
  rcases ha with rfl | rfl <;> rcases hb with rfl | rfl
  · left; rfl
  · right; simp
  · right; simp
  · right; decide

/-- The leading-zero scan only returns 0 or EBADMSG. -/
theorem scan_go_err (fuel : Nat) : ∀ (zeros : Nat) (gb : Getbit),
    (scan_go fuel zeros gb).1 = 0 ∨ (scan_go fuel zeros gb).1 = EBADMSG := by
  induction fuel with
  | zero => intro zeros gb; right; rfl
  | succ fuel ih =>
    intro zeros gb
    unfold scan_go
    split
    · right; rfl
    · split
      · exact ih _ _
      · left; rfl

/-- `scan_zeros` only returns 0 or EBADMSG. -/
theorem scan_zeros_err (gb : Getbit) :
    (scan_zeros gb).1 = 0 ∨ (scan_zeros gb).1 = EBADMSG :=
  scan_go_err _ _ _

/-- The suffix loop only returns 0 or EBADMSG. -/
theorem read_suffix_err (i : Nat) : ∀ (info : Nat) (gb : Getbit),
    (read_suffix i info gb).1 = 0 ∨ (read_suffix i info gb).1 = EBADMSG := by
  induction i with
  | zero => intro info gb; left; rfl
  | succ i ih =>
    intro info gb
    unfold read_suffix
    split
    · right; rfl
    · exact ih _ _

/-- `get_ue_golomb` only returns 0 or EBADMSG. -/
theorem get_ue_golomb_err (gb : Getbit) :
    (get_ue_golomb gb).1 = 0 ∨ (get_ue_golomb gb).1 = EBADMSG := by
  unfold get_ue_golomb
  rcases hs : scan_zeros gb with ⟨e, zeros, gb1⟩
  have hse : e = 0 ∨ e = EBADMSG := by
    have h := scan_zeros_err gb
    rw [hs] at h
    exact h
  dsimp only
  by_cases h1 : e ≠ 0
  · rw [if_pos h1]
    exact hse
  · rw [if_neg h1]
    rcases hr : read_suffix zeros ((1 <<< zeros) % U32) gb1 with ⟨e2, info, gb2⟩
    have hre : e2 = 0 ∨ e2 = EBADMSG := by
      have h := read_suffix_err zeros ((1 <<< zeros) % U32) gb1
      rw [hr] at h
      exact h
    dsimp only
    by_cases h2 : e2 ≠ 0
    · rw [if_pos h2]
      exact hre
    · rw [if_neg h2]
      left; rfl

/-- The scaling-list loop only returns 0 or EBADMSG. -/
theorem scaling_list_go_err : ∀ (j lastscale nextscale : Nat) (gb : Getbit),
    (scaling_list_go j lastscale nextscale gb).1 = 0 ∨
    (scaling_list_go j lastscale nextscale gb).1 = EBADMSG := by
  intro j
  induction j with
  | zero => intro _ _ gb; left; rfl
  | succ j ih =>
    intro lastscale nextscale gb
    unfold scaling_list_go
    split
    · rcases hg : get_ue_golomb gb with ⟨e, d, gb1⟩
      have he : e = 0 ∨ e = EBADMSG := by
        have h := get_ue_golomb_err gb
        rw [hg] at h
        exact h
      dsimp only
      by_cases h1 : e ≠ 0
      · rw [if_pos h1]
        exact he
      · rw [if_neg h1]
        exact ih _ _ _
    · exact ih _ _ _

/-- `scaling_list` only returns 0 or EBADMSG. -/
theorem scaling_list_err (gb : Getbit) (s : Nat) :
    (scaling_list gb s).1 = 0 ∨ (scaling_list gb s).1 = EBADMSG :=
  scaling_list_go_err _ _ _ _

/-- The scaling-matrix loop only returns 0 or EBADMSG. -/
theorem dsm_go_err : ∀ (rem i : Nat) (gb : Getbit),
    (dsm_go rem i gb).1 = 0 ∨ (dsm_go rem i gb).1 = EBADMSG := by
  intro rem
  induction rem with
  | zero => intro _ gb; left; rfl
  | succ rem ih =>
    intro i gb
    unfold dsm_go
    split
    · right; rfl
    · split
      · rcases hs : scaling_list (get_bit gb).2 (if i < 6 then 16 else 64) with ⟨e, gb1⟩
        have he : e = 0 ∨ e = EBADMSG := by
          have h := scaling_list_err (get_bit gb).2 (if i < 6 then 16 else 64)
          rw [hs] at h
          exact h
        dsimp only
        by_cases h1 : e ≠ 0
        · rw [if_pos h1]
          exact he
        · rw [if_neg h1]
          exact ih _ _
      · exact ih _ _

/-- `decode_scaling_matrix` only returns 0 or EBADMSG. -/
theorem decode_scaling_matrix_err (gb : Getbit) (c : Nat) :
    (decode_scaling_matrix gb c).1 = 0 ∨ (decode_scaling_matrix gb c).1 = EBADMSG :=
  dsm_go_err _ _ _

/-- `decode_high_profile` only returns 0 or EBADMSG. -/
theorem decode_high_profile_err (gb : Getbit) :
    (decode_high_profile gb).1 = 0 ∨ (decode_high_profile gb).1 = EBADMSG := by
  unfold decode_high_profile
  rcases hg : get_ue_golomb gb with ⟨e, chroma, gb1⟩
  have he : e = 0 ∨ e = EBADMSG := by
    have h := get_ue_golomb_err gb
    rw [hg] at h
    exact h
  dsimp only
  by_cases h1 : e ≠ 0
  · rw [if_pos h1]
    exact he
  · rw [if_neg h1]
    by_cases h2 : 3 < chroma
    · rw [if_pos h2]
      right; rfl
    · rw [if_neg h2]
      rcases hcp : (if chroma = 3 then
          (if getbit_get_left gb1 < 1 then (EBADMSG, gb1)
           else (0, (get_bit gb1).2)) else (0, gb1) : Nat × Getbit) with ⟨e1, gb2⟩
      have he1 : e1 = 0 ∨ e1 = EBADMSG := by
        have h : ((if chroma = 3 then
            (if getbit_get_left gb1 < 1 then (EBADMSG, gb1)
             else (0, (get_bit gb1).2)) else (0, gb1) : Nat × Getbit)).1 = 0 ∨
            ((if chroma = 3 then
            (if getbit_get_left gb1 < 1 then (EBADMSG, gb1)
             else (0, (get_bit gb1).2)) else (0, gb1) : Nat × Getbit)).1 = EBADMSG := by
          split
          · split
            · right; rfl
            · left; rfl
          · left; rfl
        rw [hcp] at h
        exact h
      dsimp only
      by_cases h3 : e1 ≠ 0
      · rw [if_pos h3]
        exact he1
      · rw [if_neg h3]
        rcases hA : get_ue_golomb gb2 with ⟨eA, vA, gb3⟩
        have heA : eA = 0 ∨ eA = EBADMSG := by
          have h := get_ue_golomb_err gb2
          rw [hA] at h
          exact h
        dsimp only
        rcases hB : get_ue_golomb gb3 with ⟨eB, vB, gb4⟩
        have heB : eB = 0 ∨ eB = EBADMSG := by
          have h := get_ue_golomb_err gb3
          rw [hB] at h
          exact h
        dsimp only
        by_cases h4 : eA ||| eB ≠ 0
        · rw [if_pos h4]
          exact or_err heA heB
        · rw [if_neg h4]
          by_cases h5 : getbit_get_left gb4 < 2
          · rw [if_pos h5]
            right; rfl
          · rw [if_neg h5]
            by_cases h6 : (get_bit (get_bit gb4).2).1 ≠ 0
            · rw [if_pos h6]
              rcases hm : decode_scaling_matrix (get_bit (get_bit gb4).2).2 chroma with ⟨e2, gb5⟩
              have he2 : e2 = 0 ∨ e2 = EBADMSG := by
                have h := decode_scaling_matrix_err (get_bit (get_bit gb4).2).2 chroma
                rw [hm] at h
                exact h
              dsimp only
              by_cases h7 : e2 ≠ 0
              · rw [if_pos h7]
                exact he2
              · rw [if_neg h7]
                left; rfl
            · rw [if_neg h6]
              left; rfl

/-- The chroma branch of the main decoder only returns 0 or EBADMSG. -/
theorem chroma_branch_err (p : Nat) (gb : Getbit) :
    ((if profile_is_high p then decode_high_profile gb
      else (0, 1, gb) : Nat × Nat × Getbit)).1 = 0 ∨
    ((if profile_is_high p then decode_high_profile gb
      else (0, 1, gb) : Nat × Nat × Getbit)).1 = EBADMSG := by
  split
  · exact decode_high_profile_err gb
  · left; rfl

/-- `poc_phase` only returns 0, EBADMSG or ENOTSUP. -/
theorem poc_phase_err (gb : Getbit) (t : Nat) :
    (poc_phase gb t).1 = 0 ∨ (poc_phase gb t).1 = EBADMSG ∨
    (poc_phase gb t).1 = ENOTSUP := by
  unfold poc_phase
  split
  · rcases hg : get_ue_golomb gb with ⟨e, v, gb1⟩
    have he : e = 0 ∨ e = EBADMSG := by
      have h := get_ue_golomb_err gb
      rw [hg] at h
      exact h
    dsimp only
    rcases he with h | h
    · left; exact h
    · right; left; exact h
  · split
    · left; rfl
    · right; right; rfl

/-- `adaptive_phase` only returns 0 or EBADMSG. -/
theorem adaptive_phase_err (gb : Getbit) (f : Nat) :
    (adaptive_phase gb f).1 = 0 ∨ (adaptive_phase gb f).1 = EBADMSG := by
  unfold adaptive_phase
  split
  · left; rfl
  · split
    · right; rfl
    · left; rfl

/-- `decode_crop` only returns 0 or EBADMSG. -/
theorem decode_crop_err (gb : Getbit) (c f w h : Nat) :
    (decode_crop gb c f w h).1 = 0 ∨ (decode_crop gb c f w h).1 = EBADMSG := by
  unfold decode_crop
  rcases h1 : get_ue_golomb gb with ⟨e1, cl, gb1⟩
  have he1 : e1 = 0 ∨ e1 = EBADMSG := by
    have h := get_ue_golomb_err gb; rw [h1] at h; exact h
  dsimp only
  rcases h2 : get_ue_golomb gb1 with ⟨e2, cr, gb2⟩
  have he2 : e2 = 0 ∨ e2 = EBADMSG := by
    have h := get_ue_golomb_err gb1; rw [h2] at h; exact h
  dsimp only
  rcases h3 : get_ue_golomb gb2 with ⟨e3, ct, gb3⟩
  have he3 : e3 = 0 ∨ e3 = EBADMSG := by
    have h := get_ue_golomb_err gb2; rw [h3] at h; exact h
  dsimp only
  rcases h4 : get_ue_golomb gb3 with ⟨e4, cb, gb4⟩
  have he4 : e4 = 0 ∨ e4 = EBADMSG := by
    have h := get_ue_golomb_err gb3; rw [h4] at h; exact h
  dsimp only
  by_cases hor : e1 ||| e2 ||| e3 ||| e4 ≠ 0
  · rw [if_pos hor]
    exact or_err (or_err (or_err he1 he2) he3) he4
  · rw [if_neg hor]
    by_cases hv :
        umul (uadd cl cr) (1 <<< (if c = 1 ∨ c = 2 then 1 else 0)) ≥ w ∨
        umul (uadd ct cb) ((2 - f) <<< (if c = 1 then 1 else 0)) ≥ h
    · rw [if_pos hv]
      right; rfl
    · rw [if_neg hv]
      left; rfl


/-- C 32-bit multiplication stays below 2^32. -/
theorem umul_lt (a b : Nat) : umul a b < U32 := by
  simp only [umul, U32]
  omega

/-- The sum of the two stored pixel offsets agrees mod 2^32 with the
quantity the decoder validated (`(crop_a + crop_b) * s` in unsigned
arithmetic). -/
theorem offsets_sum_mod (sx cl cr : Nat) :
    (umul sx cl + umul sx cr) % U32 = umul (uadd cl cr) sx := by
  unfold umul uadd
  rw [← Nat.add_mod, Nat.mod_mul_mod, show sx * cl + sx * cr = (cl + cr) * sx by ring]

/-- The doubly-truncated unsigned subtraction of validated crop offsets
never exceeds the frame dimension. -/
theorem usub_crop_le {w l r : Nat} (hw : w < U32)
    (hlr : (l + r) % U32 < w) : usub (usub w l) r ≤ w := by
  simp only [usub, U32] at *
  omega

/-- Subtracting zero twice in 32-bit arithmetic is the identity below 2^32. -/
theorem usub_zero_zero (x : Nat) (hx : x < U32) : usub (usub x 0) 0 = x := by
  simp only [usub, U32] at *
  omega


/-- Per-offset and dimension facts available after a successful `decode_crop`:
the validated sums are below the frame dimensions and every offset is a
32-bit value. -/
theorem decode_crop_success (gb : Getbit) (c f w h : Nat)
    (hs : (decode_crop gb c f w h).1 = 0) :
    ((decode_crop gb c f w h).2.1.1 + (decode_crop gb c f w h).2.1.2.1) % U32 < w ∧
    ((decode_crop gb c f w h).2.1.2.2.1 + (decode_crop gb c f w h).2.1.2.2.2) % U32 < h ∧
    (decode_crop gb c f w h).2.1.1 < U32 ∧ (decode_crop gb c f w h).2.1.2.1 < U32 ∧
    (decode_crop gb c f w h).2.1.2.2.1 < U32 ∧ (decode_crop gb c f w h).2.1.2.2.2 < U32 := by
  revert hs
  unfold decode_crop
  rcases h1 : get_ue_golomb gb with ⟨e1, cl, gb1⟩
  dsimp only
  rcases h2 : get_ue_golomb gb1 with ⟨e2, cr, gb2⟩
  dsimp only
  rcases h3 : get_ue_golomb gb2 with ⟨e3, ct, gb3⟩
  dsimp only
  rcases h4 : get_ue_golomb gb3 with ⟨e4, cb, gb4⟩
  dsimp only
  by_cases hor : e1 ||| e2 ||| e3 ||| e4 ≠ 0
  · rw [if_pos hor]
    intro hs
    exact absurd hs hor
  · rw [if_neg hor]
    by_cases hv :
        umul (uadd cl cr) (1 <<< (if c = 1 ∨ c = 2 then 1 else 0)) ≥ w ∨
        umul (uadd ct cb) ((2 - f) <<< (if c = 1 then 1 else 0)) ≥ h
    · rw [if_pos hv]
      intro hs
      exact absurd hs (by dsimp only; decide)
    · rw [if_neg hv]
      intro _
      push_neg at hv
      obtain ⟨hv1, hv2⟩ := hv
      dsimp only
      refine ⟨?_, ?_, umul_lt _ _, umul_lt _ _, umul_lt _ _, umul_lt _ _⟩
      · rw [offsets_sum_mod]
        exact hv1
      · rw [offsets_sum_mod]
        exact hv2

/-- Characterization of `h264_sps_decode`: the error code is one of 0,
EINVAL, EBADMSG, ENOTSUP; and on success the returned record satisfies the
cropping invariants — cropped dimensions never exceed the frame dimensions,
the crop offsets are zero when the cropping flag is clear, and when it is
set the (32-bit) offset sums are strictly below the frame dimensions. -/
theorem h264_sps_decode_cases (sps : h264_sps) (buf : List Nat) (len : Nat)
    (err : Nat) (r : h264_sps) (hd : h264_sps_decode sps buf len = (err, r)) :
    (err = 0 ∨ err = EINVAL ∨ err = EBADMSG ∨ err = ENOTSUP) ∧
    (err = 0 →
      r.width_cropped ≤ r.width ∧ r.height_cropped ≤ r.height ∧
      (r.frame_cropping_flg = false →
        r.frame_crop_left_offset = 0 ∧ r.frame_crop_right_offset = 0 ∧
        r.frame_crop_top_offset = 0 ∧ r.frame_crop_bottom_offset = 0) ∧
      (r.frame_cropping_flg = true →
        (r.frame_crop_left_offset + r.frame_crop_right_offset) % U32 < r.width ∧
        (r.frame_crop_top_offset + r.frame_crop_bottom_offset) % U32 < r.height)) := by
  revert hd
  unfold h264_sps_decode
  by_cases hl : len < 3
  · rw [if_pos hl]
    intro hd
    injection hd with hE hR
    subst hE
    exact ⟨Or.inr (Or.inl rfl), fun h0 => absurd h0 (by decide)⟩
  · rw [if_neg hl]
    rcases hg1 : get_ue_golomb (getbit_init (buf.drop 3) ((len - 3) * 8)) with ⟨e1, sid, gb1⟩
    have he1 : e1 = 0 ∨ e1 = EBADMSG := by
      have h := get_ue_golomb_err (getbit_init (buf.drop 3) ((len - 3) * 8))
      rw [hg1] at h
      exact h
    dsimp only
    by_cases h1 : e1 ≠ 0
    · rw [if_pos h1]
      intro hd
      injection hd with hE hR
      subst hE
      rcases he1 with he0 | heB
      · exact absurd he0 h1
      · exact ⟨Or.inr (Or.inr (Or.inl heB)), fun h0 => absurd h0 h1⟩
    · rw [if_neg h1]
      by_cases h2 : sid ≥ MAX_SPS_COUNT
      · rw [if_pos h2]
        intro hd
        injection hd with hE hR
        subst hE
        exact ⟨Or.inr (Or.inr (Or.inl rfl)), fun h0 => absurd h0 (by decide)⟩
      · rw [if_neg h2]
        rcases hg2 : (if profile_is_high (buf.getD 0 0 % 256) then decode_high_profile gb1
            else (0, 1, gb1) : Nat × Nat × Getbit) with ⟨e2, chroma, gb2⟩
        have he2 : e2 = 0 ∨ e2 = EBADMSG := by
          have h := chroma_branch_err (buf.getD 0 0 % 256) gb1
          rw [hg2] at h
          exact h
        dsimp only
        by_cases h3 : e2 ≠ 0
        · rw [if_pos h3]
          intro hd
          injection hd with hE hR
          subst hE
          rcases he2 with he0 | heB
          · exact absurd he0 h3
          · exact ⟨Or.inr (Or.inr (Or.inl heB)), fun h0 => absurd h0 h3⟩
        · rw [if_neg h3]
          rcases hg3 : get_ue_golomb gb2 with ⟨e3, v3, gb3⟩
          have he3 : e3 = 0 ∨ e3 = EBADMSG := by
            have h := get_ue_golomb_err gb2
            rw [hg3] at h
            exact h
          dsimp only
          by_cases h4 : e3 ≠ 0
          · rw [if_pos h4]
            intro hd
            injection hd with hE hR
            subst hE
            rcases he3 with he0 | heB
            · exact absurd he0 h4
            · exact ⟨Or.inr (Or.inr (Or.inl heB)), fun h0 => absurd h0 h4⟩
          · rw [if_neg h4]
            by_cases h5 : uadd v3 4 > MAX_LOG2_MAX_FRAME_NUM
            · rw [if_pos h5]
              intro hd
              injection hd with hE hR
              subst hE
              exact ⟨Or.inr (Or.inr (Or.inl rfl)), fun h0 => absurd h0 (by decide)⟩
            · rw [if_neg h5]
              rcases hg4 : get_ue_golomb gb3 with ⟨e4, v4, gb4⟩
              have he4 : e4 = 0 ∨ e4 = EBADMSG := by
                have h := get_ue_golomb_err gb3
                rw [hg4] at h
                exact h
              dsimp only
              by_cases h6 : e4 ≠ 0
              · rw [if_pos h6]
                intro hd
                injection hd with hE hR
                subst hE
                rcases he4 with he0 | heB
                · exact absurd he0 h6
                · exact ⟨Or.inr (Or.inr (Or.inl heB)), fun h0 => absurd h0 h6⟩
              · rw [if_neg h6]
                rcases hg5 : poc_phase gb4 v4 with ⟨e5, gb5⟩
                have he5 : e5 = 0 ∨ e5 = EBADMSG ∨ e5 = ENOTSUP := by
                  have h := poc_phase_err gb4 v4
                  rw [hg5] at h
                  exact h
                dsimp only
                by_cases h7 : e5 ≠ 0
                · rw [if_pos h7]
                  intro hd
                  injection hd with hE hR
                  subst hE
                  rcases he5 with he0 | heB | heN
                  · exact absurd he0 h7
                  · exact ⟨Or.inr (Or.inr (Or.inl heB)), fun h0 => absurd h0 h7⟩
                  · exact ⟨Or.inr (Or.inr (Or.inr heN)), fun h0 => absurd h0 h7⟩
                · rw [if_neg h7]
                  rcases hg6 : get_ue_golomb gb5 with ⟨e6, v6, gb6⟩
                  have he6 : e6 = 0 ∨ e6 = EBADMSG := by
                    have h := get_ue_golomb_err gb5
                    rw [hg6] at h
                    exact h
                  dsimp only
                  by_cases h8 : e6 ≠ 0
                  · rw [if_pos h8]
                    intro hd
                    injection hd with hE hR
                    subst hE
                    rcases he6 with he0 | heB
                    · exact absurd he0 h8
                    · exact ⟨Or.inr (Or.inr (Or.inl heB)), fun h0 => absurd h0 h8⟩
                  · rw [if_neg h8]
                    by_cases h9 : getbit_get_left gb6 < 1
                    · rw [if_pos h9]
                      intro hd
                      injection hd with hE hR
                      subst hE
                      exact ⟨Or.inr (Or.inr (Or.inl rfl)), fun h0 => absurd h0 (by decide)⟩
                    · rw [if_neg h9]
                      rcases hg7 : get_ue_golomb (get_bit gb6).2 with ⟨e7, mbw, gb7⟩
                      have he7 : e7 = 0 ∨ e7 = EBADMSG := by
                        have h := get_ue_golomb_err (get_bit gb6).2
                        rw [hg7] at h
                        exact h
                      dsimp only
                      rcases hg8 : get_ue_golomb gb7 with ⟨e8, mbh, gb8⟩
                      have he8 : e8 = 0 ∨ e8 = EBADMSG := by
                        have h := get_ue_golomb_err gb7
                        rw [hg8] at h
                        exact h
                      dsimp only
                      by_cases h10 : e7 ||| e8 ≠ 0
                      · rw [if_pos h10]
                        intro hd
                        injection hd with hE hR
                        subst hE
                        rcases or_err he7 he8 with he0 | heB
                        · exact absurd he0 h10
                        · exact ⟨Or.inr (Or.inr (Or.inl heB)), fun h0 => absurd h0 h10⟩
                      · rw [if_neg h10]
                        by_cases h11 : getbit_get_left gb8 < 1
                        · rw [if_pos h11]
                          intro hd
                          injection hd with hE hR
                          subst hE
                          exact ⟨Or.inr (Or.inr (Or.inl rfl)), fun h0 => absurd h0 (by decide)⟩
                        · rw [if_neg h11]
                          by_cases h12 : uadd mbw 1 ≥ MAX_MACROBLOCKS ∨
                              umul (uadd mbh 1) (2 - (get_bit gb8).1) ≥ MAX_MACROBLOCKS
                          · rw [if_pos h12]
                            intro hd
                            injection hd with hE hR
                            subst hE
                            exact ⟨Or.inr (Or.inr (Or.inl rfl)), fun h0 => absurd h0 (by decide)⟩
                          · rw [if_neg h12]
                            rcases hg9 : adaptive_phase (get_bit gb8).2 (get_bit gb8).1 with ⟨e9, gb9⟩
                            have he9 : e9 = 0 ∨ e9 = EBADMSG := by
                              have h := adaptive_phase_err (get_bit gb8).2 (get_bit gb8).1
                              rw [hg9] at h
                              exact h
                            dsimp only
                            by_cases h13 : e9 ≠ 0
                            · rw [if_pos h13]
                              intro hd
                              injection hd with hE hR
                              subst hE
                              rcases he9 with he0 | heB
                              · exact absurd he0 h13
                              · exact ⟨Or.inr (Or.inr (Or.inl heB)), fun h0 => absurd h0 h13⟩
                            · rw [if_neg h13]
                              by_cases h14 : getbit_get_left gb9 < 1
                              · rw [if_pos h14]
                                intro hd
                                injection hd with hE hR
                                subst hE
                                exact ⟨Or.inr (Or.inr (Or.inl rfl)), fun h0 => absurd h0 (by decide)⟩
                              · rw [if_neg h14]
                                by_cases h15 : getbit_get_left (get_bit gb9).2 < 1
                                · rw [if_pos h15]
                                  intro hd
                                  injection hd with hE hR
                                  subst hE
                                  exact ⟨Or.inr (Or.inr (Or.inl rfl)), fun h0 => absurd h0 (by decide)⟩
                                · rw [if_neg h15]
                                  by_cases hflag : ((get_bit (get_bit gb9).2).1 != 0) = true
                                  · simp only [if_pos hflag]
                                    rcases hC : decode_crop (get_bit (get_bit gb9).2).2 chroma
                                        (get_bit gb8).1
                                        (umul MACROBLOCK_SIZE (uadd mbw 1))
                                        (umul MACROBLOCK_SIZE (umul (uadd mbh 1) (2 - (get_bit gb8).1)))
                                        with ⟨e10, offs, gbz⟩
                                    have he10 : e10 = 0 ∨ e10 = EBADMSG := by
                                      have h := decode_crop_err (get_bit (get_bit gb9).2).2 chroma
                                        (get_bit gb8).1
                                        (umul MACROBLOCK_SIZE (uadd mbw 1))
                                        (umul MACROBLOCK_SIZE (umul (uadd mbh 1) (2 - (get_bit gb8).1)))
                                      rw [hC] at h
                                      exact h
                                    dsimp only
                                    by_cases h16 : e10 ≠ 0
                                    · rw [if_pos h16]
                                      intro hd
                                      injection hd with hE hR
                                      subst hE
                                      rcases he10 with he0 | heB
                                      · exact absurd he0 h16
                                      · exact ⟨Or.inr (Or.inr (Or.inl heB)), fun h0 => absurd h0 h16⟩
                                    · rw [if_neg h16]
                                      intro hd
                                      injection hd with hE hR
                                      subst hE
                                      subst hR
                                      have h0c : (decode_crop (get_bit (get_bit gb9).2).2 chroma
                                          (get_bit gb8).1
                                          (umul MACROBLOCK_SIZE (uadd mbw 1))
                                          (umul MACROBLOCK_SIZE (umul (uadd mbh 1) (2 - (get_bit gb8).1)))).1 = 0 := by
                                        rw [hC]
                                        show e10 = 0
                                        omega
                                      have hx := decode_crop_success _ _ _ _ _ h0c
                                      rw [hC] at hx
                                      dsimp only at hx
                                      obtain ⟨hxw, hxh, hxl, hxr, hxt, hxb⟩ := hx
                                      refine ⟨Or.inl rfl, fun _ => ⟨?_, ?_, ?_, ?_⟩⟩
                                      · exact usub_crop_le (umul_lt _ _) hxw
                                      · exact usub_crop_le (umul_lt _ _) hxh
                                      · intro habs
                                        rw [hflag] at habs
                                        dsimp only at habs
                                        exact absurd habs (by decide)
                                      · intro habs2
                                        exact ⟨hxw, hxh⟩
                                  · simp only [if_neg hflag]
                                    rw [if_neg (fun hh : (0:Nat) ≠ 0 => hh rfl)]
                                    intro hd
                                    injection hd with hE hR
                                    subst hE
                                    subst hR
                                    refine ⟨Or.inl rfl, fun _ => ⟨?_, ?_, ?_, ?_⟩⟩
                                    · rw [usub_zero_zero (umul MACROBLOCK_SIZE (uadd mbw 1))
                                        (umul_lt _ _)]
                                    · rw [usub_zero_zero (umul MACROBLOCK_SIZE
                                        (umul (uadd mbh 1) (2 - (get_bit gb8).1))) (umul_lt _ _)]
                                    · intro habs3
                                      exact ⟨rfl, rfl, rfl, rfl⟩
                                    · intro habs4
                                      exact absurd habs4 hflag

/-- C2: the bit cursor never reads outside the buffer and the decode always
terminates with a record or an error code.  Conjuncts: `getbit_init` starts
at bit 0 over the declared length; `get_bit` never decreases the position,
advances it by at most one, never moves it past the declared bit length,
and touches neither buffer nor length; whenever `get_bit` dereferences the
buffer (position strictly below the bit length, with the bit length within
the buffer, as `h264_sps_decode` arranges for `len`-byte buffers), the byte
index `pos / 8` is inside the buffer; and `h264_sps_decode` always returns
0, EINVAL, EBADMSG or ENOTSUP. -/
theorem bit_cursor_safety :
    (∀ (buf : List Nat) (n : Nat), (getbit_init buf n).pos = 0 ∧
       (getbit_init buf n).endp = n ∧ (getbit_init buf n).buf = buf) ∧
    (∀ gb : Getbit, gb.pos ≤ (get_bit gb).2.pos ∧ (get_bit gb).2.pos ≤ gb.pos + 1 ∧
       (get_bit gb).2.endp = gb.endp ∧ (get_bit gb).2.buf = gb.buf ∧
       (gb.pos ≤ gb.endp → (get_bit gb).2.pos ≤ gb.endp)) ∧
    (∀ gb : Getbit, gb.endp ≤ 8 * gb.buf.length → gb.pos < gb.endp →
       gb.pos / 8 < gb.buf.length) ∧
    (∀ (sps : h264_sps) (buf : List Nat) (len : Nat),
       (h264_sps_decode sps buf len).1 = 0 ∨ (h264_sps_decode sps buf len).1 = EINVAL ∨
       (h264_sps_decode sps buf len).1 = EBADMSG ∨
       (h264_sps_decode sps buf len).1 = ENOTSUP) := by
  refine ⟨fun buf n => ⟨rfl, rfl, rfl⟩, ?_, ?_, ?_⟩
  · intro gb
    unfold get_bit
    by_cases h : gb.pos ≥ gb.endp
    · rw [if_pos h]
      exact ⟨Nat.le_refl _, Nat.le_succ _, rfl, rfl, fun hle => hle⟩
    · rw [if_neg h]
      refine ⟨Nat.le_succ _, Nat.le_refl _, rfl, rfl, fun _ => ?_⟩
      show gb.pos + 1 ≤ gb.endp
      omega
  · intro gb h1 h2
    omega
  · intro sps buf len
    rcases hd : h264_sps_decode sps buf len with ⟨err, r⟩
    exact (h264_sps_decode_cases sps buf len err r hd).1

/-- Witness for `bit_cursor_safety`: the in-bounds byte index and the
position bound at concrete cursors. -/
theorem bit_cursor_safety_witness :
    (3 : Nat) / 8 < 2 ∧ (get_bit ⟨[7], 2, 8⟩).2.pos ≤ 8 :=
  ⟨bit_cursor_safety.2.2.1 ⟨[1, 2], 3, 16⟩ (by decide) (by decide),
   (bit_cursor_safety.2.1 ⟨[7], 2, 8⟩).2.2.2.2 (by decide)⟩

/-- C7: every record returned by a successful decode satisfies
`width_cropped <= width` and `height_cropped <= height`; all four crop
offsets are 0 when `frame_cropping_flg` is false; and when the flag is set
the record only exists because the crop-offset range validation succeeded,
whose guarantees (the 32-bit sums of opposing pixel offsets are strictly
below the frame dimensions) still hold of the returned offsets. -/
theorem sps_decode_crop_invariants (sps : h264_sps) (buf : List Nat) (len : Nat)
    (r : h264_sps) (h : h264_sps_decode sps buf len = (0, r)) :
    r.width_cropped ≤ r.width ∧ r.height_cropped ≤ r.height ∧
    (r.frame_cropping_flg = false →
      r.frame_crop_left_offset = 0 ∧ r.frame_crop_right_offset = 0 ∧
      r.frame_crop_top_offset = 0 ∧ r.frame_crop_bottom_offset = 0) ∧
    (r.frame_cropping_flg = true →
      (r.frame_crop_left_offset + r.frame_crop_right_offset) % U32 < r.width ∧
      (r.frame_crop_top_offset + r.frame_crop_bottom_offset) % U32 < r.height) :=
  (h264_sps_decode_cases sps buf len 0 r h).2 rfl

/-- Witness for `sps_decode_crop_invariants` on the worked 5-byte example. -/
theorem sps_decode_crop_invariants_witness :
    (h264_sps_decode sps_zero [0x42, 0x00, 0x1E, 0xDD, 0xE0] 5).2.width_cropped ≤
      (h264_sps_decode sps_zero [0x42, 0x00, 0x1E, 0xDD, 0xE0] 5).2.width ∧
    (h264_sps_decode sps_zero [0x42, 0x00, 0x1E, 0xDD, 0xE0] 5).2.height_cropped ≤
      (h264_sps_decode sps_zero [0x42, 0x00, 0x1E, 0xDD, 0xE0] 5).2.height ∧
    ((h264_sps_decode sps_zero [0x42, 0x00, 0x1E, 0xDD, 0xE0] 5).2.frame_cropping_flg = false →
      (h264_sps_decode sps_zero [0x42, 0x00, 0x1E, 0xDD, 0xE0] 5).2.frame_crop_left_offset = 0 ∧
      (h264_sps_decode sps_zero [0x42, 0x00, 0x1E, 0xDD, 0xE0] 5).2.frame_crop_right_offset = 0 ∧
      (h264_sps_decode sps_zero [0x42, 0x00, 0x1E, 0xDD, 0xE0] 5).2.frame_crop_top_offset = 0 ∧
      (h264_sps_decode sps_zero [0x42, 0x00, 0x1E, 0xDD, 0xE0] 5).2.frame_crop_bottom_offset = 0) ∧
    ((h264_sps_decode sps_zero [0x42, 0x00, 0x1E, 0xDD, 0xE0] 5).2.frame_cropping_flg = true →
      ((h264_sps_decode sps_zero [0x42, 0x00, 0x1E, 0xDD, 0xE0] 5).2.frame_crop_left_offset +
       (h264_sps_decode sps_zero [0x42, 0x00, 0x1E, 0xDD, 0xE0] 5).2.frame_crop_right_offset) % U32 <
        (h264_sps_decode sps_zero [0x42, 0x00, 0x1E, 0xDD, 0xE0] 5).2.width ∧
      ((h264_sps_decode sps_zero [0x42, 0x00, 0x1E, 0xDD, 0xE0] 5).2.frame_crop_top_offset +
       (h264_sps_decode sps_zero [0x42, 0x00, 0x1E, 0xDD, 0xE0] 5).2.frame_crop_bottom_offset) % U32 <
        (h264_sps_decode sps_zero [0x42, 0x00, 0x1E, 0xDD, 0xE0] 5).2.height) :=
  sps_decode_crop_invariants sps_zero [0x42, 0x00, 0x1E, 0xDD, 0xE0] 5
    (h264_sps_decode sps_zero [0x42, 0x00, 0x1E, 0xDD, 0xE0] 5).2 rfl

/-- C8: with the cropping flag set, the crop block fails with EBADMSG unless
both `(crop_left+crop_right)*sx < width` and `(crop_top+crop_bottom)*sy <
height` hold (32-bit unsigned arithmetic; `sx = 1 << hsub` with `hsub = 1`
iff chroma is 1 or 2, `sy = (2 - frame_mbs_only_flag) << vsub` with
`vsub = 1` iff chroma is 1), and succeeds with the scaled pixel offsets when
both hold; in particular the full decode of a bitstream whose
`(crop_left+crop_right)*sx` equals `width` (the 6-byte input below encodes
crop_left = 8, sx = 2, width = 16) is rejected with EBADMSG. -/
theorem sps_crop_validation :
    (∀ (gb gb1 gb2 gb3 gb4 : Getbit) (ch f w h cl cr ct cb : Nat),
      get_ue_golomb gb = (0, cl, gb1) → get_ue_golomb gb1 = (0, cr, gb2) →
      get_ue_golomb gb2 = (0, ct, gb3) → get_ue_golomb gb3 = (0, cb, gb4) →
      (umul (uadd cl cr) (1 <<< (if ch = 1 ∨ ch = 2 then 1 else 0)) ≥ w ∨
       umul (uadd ct cb) ((2 - f) <<< (if ch = 1 then 1 else 0)) ≥ h →
        decode_crop gb ch f w h = (EBADMSG, (0, 0, 0, 0), gb4)) ∧
      (umul (uadd cl cr) (1 <<< (if ch = 1 ∨ ch = 2 then 1 else 0)) < w →
       umul (uadd ct cb) ((2 - f) <<< (if ch = 1 then 1 else 0)) < h →
        decode_crop gb ch f w h =
          (0, (umul (1 <<< (if ch = 1 ∨ ch = 2 then 1 else 0)) cl,
               umul (1 <<< (if ch = 1 ∨ ch = 2 then 1 else 0)) cr,
               umul ((2 - f) <<< (if ch = 1 then 1 else 0)) ct,
               umul ((2 - f) <<< (if ch = 1 then 1 else 0)) cb), gb4))) ∧
    (h264_sps_decode sps_zero [0x42, 0x00, 0x1E, 0xDD, 0xF1, 0x3C] 6).1 = EBADMSG := by
  constructor
  · intro gb gb1 gb2 gb3 gb4 ch f w h cl cr ct cb hcl hcr hct hcb
    unfold decode_crop
    rw [hcl]
    dsimp only
    rw [hcr]
    dsimp only
    rw [hct]
    dsimp only
    rw [hcb]
    dsimp only
    rw [if_neg (by decide : ¬((0 : Nat) ||| 0 ||| 0 ||| 0 ≠ 0))]
    constructor
    · intro hbad
      rw [if_pos hbad]
    · intro hw hh
      rw [if_neg (by omega)]
  · rfl

/-- Witness for `sps_crop_validation`: four zero crop Golomb values against
a zero width are rejected. -/
theorem sps_crop_validation_witness :
    decode_crop ⟨[0xFF], 0, 8⟩ 1 1 0 5 = (EBADMSG, (0, 0, 0, 0), ⟨[0xFF], 4, 8⟩) :=
  (sps_crop_validation.1 ⟨[0xFF], 0, 8⟩ ⟨[0xFF], 1, 8⟩ ⟨[0xFF], 2, 8⟩ ⟨[0xFF], 3, 8⟩
    ⟨[0xFF], 4, 8⟩ 1 1 0 5 0 0 0 0 rfl rfl rfl rfl).1 (Or.inl (by decide))
